import Mathlib

-- The rational arithmetic operations are shipped `@[irreducible]`, which
-- blocks `decide` and `rfl` evaluation of the model on concrete inputs.
-- Restoring their reducibility only affects definitional unfolding during
-- elaboration; every proof is still checked by the kernel.
set_option allowUnsafeReducibility true
attribute [reducible] Rat.add Rat.sub Rat.mul

/-!
# Verification of the de novo sequencing core and its tool wrappers

This file gives a shallow embedding of the parts of the repository that the
claims talk about:

* the de novo identification engine `CompNovoIdentificationCID`.  Only its
  header (`include/OpenMS/ANALYSIS/DENOVO/CompNovoIdentificationCID.h`) is in
  the source tree: the methods `getIdentification`, `getDecompositionsDAC_` and
  `reducePermuts_` are declared but their bodies are not part of the sample.
  Those operations are therefore modelled from the specification (sections 3,
  4.1-4.4, 7 and 8 of the design document), with `Modelled from the spec:` doc
  comments marking every such definition.
* `FilterFunctor::apply` (`include/OpenMS/FILTERING/TRANSFORMERS/FilterFunctor.h`),
  whose template body is `return 0;` on a by-reference spectrum argument.
* the output-shaping part of the `IDFilter` TOPP tool
  (`source/APPLICATIONS/TOPP/IDFilter.C`, `TOPPIDFilter::main_`): the per
  peptide-identification filter loop and the protein-identification loop.

Masses, intensities and scores (`DoubleReal` in the source, `float64` in the
spec) are modelled by `ℚ`, so tolerance comparisons are exact.
-/

/-- A spectrum peak: mass-to-charge ratio and intensity (spec section 3). -/
structure Peak where
  mz : ℚ
  intensity : ℚ
deriving DecidableEq

/-- A `PeakSpectrum` is an ordered list of peaks (spec section 3). -/
abbrev PeakSpectrum := List Peak

/-- One entry of the residue mass table: a residue token (single-letter code)
together with its monoisotopic mass (spec sections 3 and 6). -/
structure ResidueEntry where
  letter : Char
  mass : ℚ
deriving DecidableEq

/-- Configuration of one identification run (spec section 6): residue mass
table, fragment mass tolerance, precursor mass tolerance, the maximum
candidate-set size per subrange and the maximum number of retained hits. -/
structure Config where
  table : List ResidueEntry
  fragmentTol : ℚ
  precursorTol : ℚ
  cap : ℕ
  maxHits : ℕ
deriving DecidableEq

/-- A peptide hit: a candidate sequence (list of residue tokens) together with
its match score (spec sections 3 and 4.4). -/
structure PeptideHit where
  seq : List Char
  score : ℚ
deriving DecidableEq

/-- The externally visible result of one run: a ranked list of peptide hits
(spec section 3, `Peptide Identification`). -/
structure PeptideIdentification where
  hits : List PeptideHit
deriving DecidableEq

/-- Mass of one residue token, looked up in the residue mass table
(first matching entry; `0` for a token absent from the table). -/
def residueMass (table : List ResidueEntry) (c : Char) : ℚ :=
  match table.find? (fun e => e.letter == c) with
  | some e => e.mass
  | none => 0

/-- Total residue mass of a candidate sequence. -/
def seqMass (table : List ResidueEntry) (s : List Char) : ℚ :=
  (s.map (residueMass table)).sum

/-- Modelled from the spec: the Ion Scorer's node masses (spec section 4.1,
the body of `CompNovoIonScoringBase` scoring is not in src).  Every peak
contributes its own mass as a hypothesized prefix cumulative mass, and the
complementary mass `w - mz` implied by the precursor mass `w`. -/
def nodeMasses (s : PeakSpectrum) (w : ℚ) : List ℚ :=
  s.map (fun p => p.mz) ++ s.map (fun p => w - p.mz)

/-- Peaks are in ascending mass-to-charge order (spec section 3: a spectrum is
sorted ascending by mass-to-charge). -/
def monotonicPeaks : List Peak → Bool
  | [] => true
  | [_] => true
  | p :: q :: rest => decide (p.mz ≤ q.mz) && monotonicPeaks (q :: rest)

/-- A well-formed spectrum: ascending peak order and no negative masses
(spec section 7, the input-malformed taxonomy). -/
def validSpectrum (s : PeakSpectrum) : Bool :=
  monotonicPeaks s && s.all (fun p => decide (0 ≤ p.mz))

/-- Modelled from the spec: `CompNovoIdentificationCID::getDecompositionsDAC_`
(declared in `CompNovoIdentificationCID.h`, body not in src; spec section 4.2).
Divide and conquer over the gap from boundary mass `l` to boundary mass `r`:
the base case emits one residue token for every table entry whose mass matches
the whole gap within fragment tolerance; the recursive case splits at every
node mass strictly between `l` and `r` and concatenates sub-sequences of the
two sub-ranges.  The candidate set materialized for the subrange is truncated
to the configured maximum size `cap`; branches past the bound are dropped
(spec section 4.2, growth control).  Recursion depth is bounded by the `fuel`
argument (the caller passes one more than the number of nodes, spec section 5:
recursion depth is bounded by the number of distinguishable mass nodes). -/
def getDecompositionsDAC_ (table : List ResidueEntry) (tol : ℚ) (cap : ℕ)
    (nodes : List ℚ) : ℕ → ℚ → ℚ → List (List Char)
  | 0, _, _ => []
  | fuel + 1, l, r =>
    (((table.filter (fun e => decide (|r - l - e.mass| ≤ tol))).map
        (fun e => [e.letter])) ++
      ((nodes.filter (fun m => decide (l < m ∧ m < r))).flatMap (fun m =>
        (getDecompositionsDAC_ table tol cap nodes fuel l m).flatMap (fun s1 =>
          (getDecompositionsDAC_ table tol cap nodes fuel m r).map
            (fun s2 => s1 ++ s2))))).take cap

/-- The cumulative masses of the theoretical fragment-ion ladder of a
candidate sequence (spec section 4.3). -/
def ladderMasses (table : List ResidueEntry) (s : List Char) : List ℚ :=
  (List.range s.length).map (fun i => seqMass table (s.take (i + 1)))

/-- Modelled from the spec: the match score of `reducePermuts_` (spec section
4.3) counts ladder masses that are matched by some observed peak within
fragment tolerance. -/
def matchScore (s : PeakSpectrum) (table : List ResidueEntry) (tol : ℚ)
    (c : List Char) : ℚ :=
  ((ladderMasses table c).filter
    (fun m => s.any (fun p => decide (|p.mz - m| ≤ tol)))).length

/-- The ranking relation of the Permutation Reducer: a hit precedes another
when its score is at least as large (descending by match score). -/
def hitGe (a b : PeptideHit) : Prop := b.score ≤ a.score

instance : DecidableRel hitGe :=
  fun a b => inferInstanceAs (Decidable (b.score ≤ a.score))

instance : IsTotal PeptideHit hitGe :=
  ⟨fun a b => le_total b.score a.score⟩

instance : IsTrans PeptideHit hitGe :=
  ⟨fun _ _ _ h1 h2 => le_trans h2 h1⟩

/-- Build the scored hit record of one candidate sequence. -/
def mkHit (cfg : Config) (s : PeakSpectrum) (c : List Char) : PeptideHit :=
  ⟨c, matchScore s cfg.table cfg.fragmentTol c⟩

/-- Modelled from the spec: `CompNovoIdentificationCID::reducePermuts_`
(declared in `CompNovoIdentificationCID.h`, body not in src; spec section 4.3).
Each candidate is re-scored against the original spectrum, the records are
sorted descending by match score, and the ranked list is truncated to the
configured maximum number of retained hits. -/
def reducePermuts_ (cfg : Config) (s : PeakSpectrum) (cands : List (List Char)) :
    List PeptideHit :=
  (List.insertionSort hitGe (cands.map (mkHit cfg s))).take cfg.maxHits

/-- State-passing form of the reducer: the input spectrum is only read, so it
is threaded through unchanged (spec section 4.1: no mutation of the input
spectrum). -/
def reducePermutsSt (cfg : Config) (s : PeakSpectrum)
    (cands : List (List Char)) : PeakSpectrum × List PeptideHit :=
  (s, reducePermuts_ cfg s cands)

/-- Modelled from the spec: the candidates retained after decomposition over
the global boundary pair `(0, w)` and the precursor-tolerance check (spec
section 3, invariants: every retained candidate's total residue mass equals
the target peptide mass within the configured precursor mass tolerance). -/
def retainedCandidates (cfg : Config) (w : ℚ) (s : PeakSpectrum) :
    List (List Char) :=
  (getDecompositionsDAC_ cfg.table cfg.fragmentTol cfg.cap (nodeMasses s w)
      ((nodeMasses s w).length + 1) 0 w).filter
    (fun c => decide (|seqMass cfg.table c - w| ≤ cfg.precursorTol))

/-- Modelled from the spec: `CompNovoIdentificationCID::getIdentification`
(declared in `CompNovoIdentificationCID.h`, body not in src; spec sections
4.1-4.4, 7 and 8), in state-passing form over the caller-owned spectrum.
A malformed spectrum (non-monotonic peak order or a negative mass, spec
section 7) is rejected with a descriptive error before any search; an empty
spectrum is the documented zero-hit boundary case (spec section 8); otherwise
the linear pipeline scores nodes, decomposes, filters by precursor tolerance
and reduces, and wraps the surviving hits, an empty candidate set yielding a
zero-hit identification (spec sections 4.2 and 4.4). -/
def getIdentificationRun (cfg : Config) (w : ℚ) (s : PeakSpectrum) :
    PeakSpectrum × Except String PeptideIdentification :=
  if validSpectrum s = true then
    if s.isEmpty then (s, Except.ok ⟨[]⟩)
    else
      ((reducePermutsSt cfg s (retainedCandidates cfg w s)).1,
        Except.ok ⟨(reducePermutsSt cfg s (retainedCandidates cfg w s)).2⟩)
  else
    (s, Except.error "malformed input spectrum: peaks must be in ascending order with non-negative masses")

/-- The result component of one identification run. -/
def getIdentification (cfg : Config) (w : ℚ) (s : PeakSpectrum) :
    Except String PeptideIdentification :=
  (getIdentificationRun cfg w s).2

/-- A candidate sequence is supported over the gap `(l, r)` when it is built
from a chain of node masses between `l` and `r` such that every edge (the gap
between two adjacent chain masses) matches some residue mass table entry
within fragment tolerance (spec section 3, invariants). -/
inductive Supported (table : List ResidueEntry) (tol : ℚ) (nodes : List ℚ) :
    ℚ → ℚ → List Char → Prop
  | single {l r : ℚ} {e : ResidueEntry} (he : e ∈ table)
      (hm : |r - l - e.mass| ≤ tol) : Supported table tol nodes l r [e.letter]
  | split {l r m : ℚ} {s1 s2 : List Char} (hn : m ∈ nodes) (h1 : l < m)
      (h2 : m < r) (hs1 : Supported table tol nodes l m s1)
      (hs2 : Supported table tol nodes m r s2) :
      Supported table tol nodes l r (s1 ++ s2)

/-- `FilterFunctor::apply` from `FilterFunctor.h`: the template body takes the
spectrum by reference and is `return 0;` — state-passing embedding returning
the result value and the (untouched) spectrum. -/
def FilterFunctor.apply {SpectrumType : Type} (spectrum : SpectrumType) :
    ℚ × SpectrumType :=
  (0, spectrum)

namespace IDFilterTool

/-- A peptide hit of the `IDFilter` tool input (sequence and score). -/
structure PepHit where
  sequence : String
  score : ℚ
deriving DecidableEq

/-- A peptide identification record as handled by `TOPPIDFilter::main_`:
its hit list and its `RT` / `MZ` meta values. -/
structure PepId where
  hits : List PepHit
  rt : Option ℚ
  mz : Option ℚ
deriving DecidableEq

/-- A protein hit of the `IDFilter` tool input. -/
structure ProtHit where
  accession : String
  score : ℚ
deriving DecidableEq

/-- A protein identification record as handled by `TOPPIDFilter::main_`. -/
structure ProtId where
  identifier : String
  hits : List ProtHit
deriving DecidableEq

/-- One iteration of the peptide-identification loop of `TOPPIDFilter::main_`
(`IDFilter.C` lines 354-514).  `g` abstracts the precursor RT / m/z range
checks that `continue` past an identification (lines 356-366); `f` abstracts
the chain of active hit filters of the external `IDFilter` library (lines
368-505), which is not part of the sample's source.  After all active filters,
an identification whose hit list is empty is omitted (`none`); otherwise its
`RT` and `MZ` meta values are copied from the input identification and it is
kept (lines 507-512). -/
def processPeptideId (g : PepId → Bool) (f : PepId → PepId) (idn : PepId) :
    Option PepId :=
  if g idn then
    if (f idn).hits.isEmpty then none
    else some { f idn with rt := idn.rt, mz := idn.mz }
  else none

/-- The peptide-identification loop of `TOPPIDFilter::main_`: collect the
retained records in input order. -/
def filterPeptideIds (g : PepId → Bool) (f : PepId → PepId) :
    List PepId → List PepId
  | [] => []
  | idn :: rest =>
    match processPeptideId g f idn with
    | none => filterPeptideIds g f rest
    | some x => x :: filterPeptideIds g f rest

/-- The protein-identification loop of `TOPPIDFilter::main_` (`IDFilter.C`
lines 517-568).  `fp` abstracts the chain of active protein filters of the
external `IDFilter` library (lines 521-556).  A record with a non-empty input
hit list is filtered and kept only if hits survive (lines 519-562); a record
whose hit list is already empty in the input is copied to the output unchanged
(lines 563-567). -/
def filterProteinIds (fp : ProtId → ProtId) : List ProtId → List ProtId
  | [] => []
  | p :: rest =>
    if p.hits.isEmpty then p :: filterProteinIds fp rest
    else
      if (fp p).hits.isEmpty then filterProteinIds fp rest
      else fp p :: filterProteinIds fp rest

end IDFilterTool

/-- Decidable equality on run results (used only to evaluate the model on
concrete inputs). -/
instance {ε α : Type} [DecidableEq ε] [DecidableEq α] :
    DecidableEq (Except ε α) :=
  fun a b =>
    match a, b with
    | Except.ok x, Except.ok y =>
      if h : x = y then isTrue (by rw [h])
      else isFalse (fun hc => h (Except.ok.inj hc))
    | Except.error x, Except.error y =>
      if h : x = y then isTrue (by rw [h])
      else isFalse (fun hc => h (Except.error.inj hc))
    | Except.ok _, Except.error _ => isFalse (fun hc => Except.noConfusion hc)
    | Except.error _, Except.ok _ => isFalse (fun hc => Except.noConfusion hc)

/-! ## Concrete fixtures used by the witnesses -/

/-- A two-residue mass table: alanine-like `A` (71) and glycine-like `G` (57). -/
def tbl1 : List ResidueEntry := [⟨'A', 71⟩, ⟨'G', 57⟩]

/-- A small exact-tolerance configuration over `tbl1`. -/
def cfg1 : Config :=
  { table := tbl1, fragmentTol := 0, precursorTol := 0, cap := 8, maxHits := 5 }

/-- A one-peak spectrum at mass 71. -/
def sp1 : PeakSpectrum := [⟨71, 1⟩]

/-- A one-peak spectrum whose mass cannot take part in any decomposition for a
target peptide mass of 2. -/
def sp2 : PeakSpectrum := [⟨1000, 1⟩]

/-- A spectrum with non-monotonic peak order. -/
def spBad : PeakSpectrum := [⟨2, 1⟩, ⟨1, 1⟩]

/-- An `IDFilter` peptide identification with no hits. -/
def pepEmptyIn : IDFilterTool.PepId := ⟨[], none, none⟩

/-- An `IDFilter` peptide identification with one hit and precursor meta
values. -/
def pepGoodIn : IDFilterTool.PepId := ⟨[⟨"PEPTIDEK", 42⟩], some 5, some 6⟩

/-- An `IDFilter` protein identification whose hit list is empty already in
the input. -/
def protEmptyIn : IDFilterTool.ProtId := ⟨"run1", []⟩

/-! ## Helper lemmas -/

/-- Every hit returned by the Permutation Reducer is the scored record of one
of the input candidate sequences. -/
theorem mem_reducePermuts {cfg : Config} {s : PeakSpectrum}
    {cands : List (List Char)} {x : PeptideHit}
    (hx : x ∈ reducePermuts_ cfg s cands) : ∃ c ∈ cands, x = mkHit cfg s c := by
  unfold reducePermuts_ at hx
  have h2 : x ∈ cands.map (mkHit cfg s) :=
    (List.mem_insertionSort hitGe).mp (List.mem_of_mem_take hx)
  rcases List.mem_map.mp h2 with ⟨c, hc, h⟩
  exact ⟨c, hc, h.symm⟩

/-! ## Claims -/

/-- Claim C1: every candidate sequence returned by an identification run
(`getIdentification`) on a spectrum with target peptide mass `w` and
configured precursor mass tolerance has a total residue mass that differs
from `w` by at most that tolerance. -/
theorem candidate_mass_within_precursor_tolerance (cfg : Config) (w : ℚ)
    (s : PeakSpectrum) (pid : PeptideIdentification) (hit : PeptideHit)
    (hok : getIdentification cfg w s = Except.ok pid) (hmem : hit ∈ pid.hits) :
    |seqMass cfg.table hit.seq - w| ≤ cfg.precursorTol := by
  unfold getIdentification getIdentificationRun at hok
  by_cases hv : validSpectrum s = true
  · rw [if_pos hv] at hok
    by_cases he : s.isEmpty
    · rw [if_pos he] at hok
      injection hok with hok
      subst hok
      exact absurd hmem (List.not_mem_nil hit)
    · rw [if_neg he] at hok
      injection hok with hok
      subst hok
      rcases mem_reducePermuts hmem with ⟨c, hc, rfl⟩
      have h := (List.mem_filter.mp hc).2
      exact of_decide_eq_true h
  · rw [if_neg hv] at hok
    exact Except.noConfusion hok

/-- Claim C1 witness: on the one-peak fixture spectrum the run returns the
candidate `A`, whose residue mass meets the precursor tolerance. -/
theorem candidate_mass_within_precursor_tolerance_witness :
    |seqMass cfg1.table (['A'] : List Char) - 71| ≤ cfg1.precursorTol :=
  candidate_mass_within_precursor_tolerance cfg1 71 sp1 ⟨[⟨['A'], 1⟩]⟩
    ⟨['A'], 1⟩ (by decide) (by decide)

/-- Claim C2: every candidate sequence retained by the divide-and-conquer
decomposer is supported: it decomposes the gap `(l, r)` along a chain of node
masses such that every edge mass matches at least one residue mass table
entry within the fragment mass tolerance. -/
theorem decompose_edges_supported (table : List ResidueEntry) (tol : ℚ)
    (cap : ℕ) (nodes : List ℚ) (fuel : ℕ) :
    ∀ (l r : ℚ) (c : List Char),
      c ∈ getDecompositionsDAC_ table tol cap nodes fuel l r →
      Supported table tol nodes l r c := by
  induction fuel with
  | zero =>
    intro l r c hc
    simp [getDecompositionsDAC_] at hc
  | succ n ih =>
    intro l r c hc
    simp only [getDecompositionsDAC_] at hc
    rcases List.mem_append.mp (List.mem_of_mem_take hc) with hd | hs
    · rcases List.mem_map.mp hd with ⟨e, he, rfl⟩
      have h := List.mem_filter.mp he
      exact Supported.single h.1 (of_decide_eq_true h.2)
    · rcases List.mem_flatMap.mp hs with ⟨m, hm, hmem⟩
      rcases List.mem_flatMap.mp hmem with ⟨s1, hs1, hmem2⟩
      rcases List.mem_map.mp hmem2 with ⟨s2, hs2, rfl⟩
      have hmf := List.mem_filter.mp hm
      have hlt := of_decide_eq_true hmf.2
      exact Supported.split hmf.1 hlt.1 hlt.2 (ih l m s1 hs1) (ih m r s2 hs2)

/-- Claim C2 witness: the candidate `AG` produced for the gap `(0, 128)` with
split node 71 is supported by the residue table. -/
theorem decompose_edges_supported_witness :
    Supported tbl1 0 [71] 0 128 ['A', 'G'] :=
  decompose_edges_supported tbl1 0 8 [71] 2 0 128 ['A', 'G'] (by decide)

/-- Claim C3: when a run produces no candidate sequence — an empty retained
candidate set, and in particular an empty input spectrum — `getIdentification`
returns a zero-hit identification as a normal result, not an error. -/
theorem zero_hits_is_normal_result (cfg : Config) (w : ℚ) (s : PeakSpectrum)
    (hv : validSpectrum s = true)
    (h : s = [] ∨ retainedCandidates cfg w s = []) :
    getIdentification cfg w s = Except.ok ⟨[]⟩ := by
  unfold getIdentification getIdentificationRun
  rw [if_pos hv]
  rcases h with rfl | hr
  · rfl
  · by_cases he : s.isEmpty
    · rw [if_pos he]
    · rw [if_neg he]
      unfold reducePermutsSt reducePermuts_
      rw [hr]
      simp [List.insertionSort]

/-- Claim C3 witness: a run whose decomposition retains no candidate returns
the zero-hit identification. -/
theorem zero_hits_is_normal_result_witness :
    getIdentification cfg1 2 sp2 = Except.ok ⟨[]⟩ :=
  zero_hits_is_normal_result cfg1 2 sp2 (by decide) (Or.inr (by decide))

/-- Claim C4 counterexample: the claim says an empty input spectrum fails fast
with an error, but on the empty spectrum `getIdentification` returns a normal
zero-hit identification (the spec's own zero-hit boundary case). -/
theorem empty_spectrum_yields_ok_not_error :
    getIdentification cfg1 71 ([] : PeakSpectrum) = Except.ok ⟨[]⟩ := by
  decide

/-- Claim C4 (amended): a spectrum with non-monotonic peak order or a
negative-mass peak makes the identification run fail fast with a descriptive
error (the error branch is taken before any decomposition); an empty spectrum
is instead handled as the zero-hit boundary case. -/
theorem malformed_spectrum_fails_fast (cfg : Config) (w : ℚ) (s : PeakSpectrum)
    (hv : validSpectrum s = false) :
    getIdentification cfg w s =
      Except.error "malformed input spectrum: peaks must be in ascending order with non-negative masses" := by
  unfold getIdentification getIdentificationRun
  rw [if_neg (by simp [hv])]

/-- Claim C4 witness: a two-peak spectrum in descending order is rejected with
the descriptive error. -/
theorem malformed_spectrum_fails_fast_witness :
    getIdentification cfg1 71 spBad =
      Except.error "malformed input spectrum: peaks must be in ascending order with non-negative masses" :=
  malformed_spectrum_fails_fast cfg1 71 spBad (by decide)

/-- Claim C5: for every subrange the divide-and-conquer decomposer
materializes at most `cap` candidate sequences (branches beyond the bound are
dropped), and the identification of a well-formed spectrum still completes
normally with an `ok` result. -/
theorem decompose_bounded_by_cap (table : List ResidueEntry) (tol : ℚ)
    (cap : ℕ) (nodes : List ℚ) (fuel : ℕ) (l r : ℚ) (cfg : Config) (w : ℚ)
    (s : PeakSpectrum) (hv : validSpectrum s = true) :
    (getDecompositionsDAC_ table tol cap nodes fuel l r).length ≤ cap ∧
      ∃ pid, getIdentification cfg w s = Except.ok pid := by
  constructor
  · cases fuel with
    | zero => simp [getDecompositionsDAC_]
    | succ n =>
      simp only [getDecompositionsDAC_]
      exact List.length_take_le cap _
  · unfold getIdentification getIdentificationRun
    rw [if_pos hv]
    by_cases he : s.isEmpty
    · rw [if_pos he]
      exact ⟨⟨[]⟩, rfl⟩
    · rw [if_neg he]
      exact ⟨_, rfl⟩

/-- Claim C5 witness: the fixture subrange materializes at most `cap`
candidates and the fixture run completes with an `ok` result. -/
theorem decompose_bounded_by_cap_witness :
    (getDecompositionsDAC_ tbl1 0 8 [71] 2 0 128).length ≤ 8 ∧
      ∃ pid, getIdentification cfg1 71 sp1 = Except.ok pid :=
  decompose_bounded_by_cap tbl1 0 8 [71] 2 0 128 cfg1 71 sp1 (by decide)

/-- Claim C6: the permutation reducer returns a list sorted descending by
match score and truncated to at most the configured maximum number of
retained hits (the relative order of equal scores is whatever the sort picks
and is not part of the statement). -/
theorem reducePermuts_sorted_descending_truncated (cfg : Config)
    (s : PeakSpectrum) (cands : List (List Char)) :
    List.Sorted hitGe (reducePermuts_ cfg s cands) ∧
      (reducePermuts_ cfg s cands).length ≤ cfg.maxHits := by
  unfold reducePermuts_
  constructor
  · exact List.Pairwise.sublist (List.take_sublist _ _)
      (List.sorted_insertionSort hitGe (cands.map (mkHit cfg s)))
  · exact List.length_take_le _ _

/-- Claim C7: the full pipeline is a function of its inputs — two runs on the
same spectrum, peptide mass and configuration yield the same result. -/
theorem getIdentification_two_run_deterministic (cfg cfg2 : Config) (w w2 : ℚ)
    (s s2 : PeakSpectrum) (hc : cfg = cfg2) (hw : w = w2) (hs : s = s2) :
    getIdentificationRun cfg w s = getIdentificationRun cfg2 w2 s2 := by
  subst hc
  subst hw
  subst hs
  rfl

/-- Claim C7 witness: two runs on the fixture input coincide. -/
theorem getIdentification_two_run_deterministic_witness :
    getIdentificationRun cfg1 71 sp1 = getIdentificationRun cfg1 71 sp1 :=
  getIdentification_two_run_deterministic cfg1 cfg1 71 71 sp1 sp1 rfl rfl rfl

/-- Claim C8: an identification run never mutates the caller-owned input
spectrum — the spectrum component returned by the state-passing run equals
the input spectrum in every branch. -/
theorem getIdentification_preserves_input_spectrum (cfg : Config) (w : ℚ)
    (s : PeakSpectrum) : (getIdentificationRun cfg w s).1 = s := by
  unfold getIdentificationRun reducePermutsSt
  by_cases hv : validSpectrum s = true
  · rw [if_pos hv]
    by_cases he : s.isEmpty
    · rw [if_pos he]
    · rw [if_neg he]
  · rw [if_neg hv]

/-- Claim C9: for every spectrum of any type, `FilterFunctor::apply` returns
exactly 0 and leaves the spectrum unchanged. -/
theorem filterFunctor_apply_zero_and_id {SpectrumType : Type}
    (s : SpectrumType) :
    (FilterFunctor.apply s).1 = 0 ∧ (FilterFunctor.apply s).2 = s :=
  ⟨rfl, rfl⟩

/-- Claim C10: in the `IDFilter` tool, a peptide identification whose hit
list is empty after all active filters is omitted from the output entirely;
each retained peptide identification carries the `RT` and `MZ` meta values of
the corresponding input identification (and a non-empty hit list); and a
protein identification whose hit list is already empty in the input is copied
to the output unchanged. -/
theorem idFilter_empty_hit_handling (g : IDFilterTool.PepId → Bool)
    (f : IDFilterTool.PepId → IDFilterTool.PepId)
    (fp : IDFilterTool.ProtId → IDFilterTool.ProtId)
    (idn1 idn2 x : IDFilterTool.PepId) (rest : List IDFilterTool.PepId)
    (p : IDFilterTool.ProtId) (prest : List IDFilterTool.ProtId)
    (h1 : (f idn1).hits = [])
    (h2 : IDFilterTool.processPeptideId g f idn2 = some x)
    (h3 : p.hits = []) :
    IDFilterTool.filterPeptideIds g f (idn1 :: rest) =
        IDFilterTool.filterPeptideIds g f rest ∧
      (x.rt = idn2.rt ∧ x.mz = idn2.mz ∧ x.hits ≠ []) ∧
      IDFilterTool.filterProteinIds fp (p :: prest) =
        p :: IDFilterTool.filterProteinIds fp prest := by
  refine ⟨?_, ?_, ?_⟩
  · cases hg : g idn1 <;>
      simp [IDFilterTool.filterPeptideIds, IDFilterTool.processPeptideId,
        hg, h1]
  · unfold IDFilterTool.processPeptideId at h2
    by_cases hg : g idn2 = true
    · rw [if_pos hg] at h2
      by_cases he : (f idn2).hits.isEmpty
      · rw [if_pos he] at h2
        exact absurd h2 (by simp)
      · rw [if_neg he] at h2
        injection h2 with h2
        subst h2
        refine ⟨rfl, rfl, ?_⟩
        intro hnil
        apply he
        rw [List.isEmpty_iff]
        exact hnil
    · rw [if_neg hg] at h2
      exact absurd h2 (by simp)
  · simp [IDFilterTool.filterProteinIds, h3]

/-- Claim C10 witness: with identity filter chains, an input peptide
identification without hits is omitted, a retained one keeps its `RT`/`MZ`
meta values and hits, and a hit-less input protein identification passes
through unchanged. -/
theorem idFilter_empty_hit_handling_witness :
    IDFilterTool.filterPeptideIds (fun _ => true) (fun a => a) [pepEmptyIn] =
        IDFilterTool.filterPeptideIds (fun _ => true) (fun a => a) [] ∧
      (pepGoodIn.rt = pepGoodIn.rt ∧ pepGoodIn.mz = pepGoodIn.mz ∧
        pepGoodIn.hits ≠ []) ∧
      IDFilterTool.filterProteinIds (fun a => a) [protEmptyIn] =
        protEmptyIn :: IDFilterTool.filterProteinIds (fun a => a) [] :=
  idFilter_empty_hit_handling (fun _ => true) (fun a => a) (fun a => a)
    pepEmptyIn pepGoodIn pepGoodIn [] protEmptyIn [] rfl (by decide) rfl
